import Mathlib

/-!
Verification of the Browser God command-execution core
(`src/extension/background/service_worker.js`, `settings.js`, agent bridge).

The JavaScript is embedded shallowly: pure helpers become Lean functions,
the mutable service-worker state becomes an explicit `SWState` record that
handlers transform, asynchronous browser facilities (sub-command execution,
JSON parsing, page-number detection) become explicit oracle parameters, and
JavaScript truthiness of strings/numbers is modelled by testing against
`""` / `0`.
-/

namespace BrowserGod

variable {ρ κ α β : Type}

/-! ### JavaScript string primitives (over `String.data` character lists) -/

/-- Model of JS `String.prototype.toLowerCase` (ASCII range, which is all the
source exercises). -/
def jsToLower (s : String) : String := ⟨s.data.map Char.toLower⟩

/-- Model of JS `String.prototype.startsWith`. -/
def jsStartsWith (s pat : String) : Bool := pat.data.isPrefixOf s.data

/-- Model of JS `String.prototype.endsWith`. -/
def jsEndsWith (s pat : String) : Bool := pat.data.isSuffixOf s.data

/-- Model of JS `String.prototype.slice(n)` for a nonnegative start. -/
def jsDrop (s : String) (n : Nat) : String := ⟨s.data.drop n⟩

/-- First `n` characters of a string. -/
def jsTake (s : String) (n : Nat) : String := ⟨s.data.take n⟩

/-- Drop the final character (used for the trailing-slash strip). -/
def jsDropLast (s : String) : String := ⟨s.data.dropLast⟩

/-- Whitespace recognised by the model of JS `trim` (the common ASCII kinds). -/
def jsIsWhitespace (c : Char) : Bool :=
  c = ' ' || c = '\t' || c = '\n' || c = '\r' || c = '\x0b' || c = '\x0c'

/-- Model of JS `String.prototype.trim`. -/
def jsTrim (s : String) : String :=
  ⟨((s.data.dropWhile jsIsWhitespace).reverse.dropWhile jsIsWhitespace).reverse⟩

/-! ### Data model: commands, payloads, settings -/

/-- A JavaScript value as far as the `searchTerms` filter inspects it
(`typeof term === "string"` and `term.trim()`). -/
inductive JsVal where
  | str (s : String)
  | num (n : Int)
  | boolean (b : Bool)
  | nullv
deriving DecidableEq, Repr

/-- The payload fields the service worker reads on commands and sub-actions.
Absent JS fields are `none`. -/
structure BasePayload where
  url : Option String := none
  tabId : Option Nat := none
  captureType : Option String := none
  waitForMs : Option Int := none
  closeTab : Option Bool := none
  milliseconds : Option Int := none
  searchTerms : Option (List JsVal) := none
deriving DecidableEq, Repr

/-- A sub-action entry `{type, payload}` inside an `actions` array. -/
structure ActionSpec where
  type : String
  payload : BasePayload := {}
deriving DecidableEq, Repr

/-- A command payload: the base fields plus an optional `actions` array. -/
structure Payload extends BasePayload where
  actions : Option (List ActionSpec) := none
deriving DecidableEq, Repr

/-- A command `{id, type, payload}`; the source also accepts a top-level
`actions` array as a fallback for `payload.actions`. -/
structure Command where
  id : String
  type : String
  payload : Payload := {}
  actions : Option (List ActionSpec) := none
deriving DecidableEq, Repr

/-- The settings object (`settings.js` `DEFAULT_SETTINGS` shape). -/
structure Settings where
  agentControlEnabled : Bool
  allowedOrigins : List String
  maxCommandsPerMinute : Nat
  maxConcurrentTabs : Nat
  maxResponseBodyBytes : Nat
  agentWebSocketUrl : String
deriving DecidableEq, Repr

/-- `DEFAULT_SETTINGS` from `src/extension/background/settings.js`. -/
def DEFAULT_SETTINGS : Settings :=
  { agentControlEnabled := false
    allowedOrigins := ["etsy.com", "*.etsy.com"]
    maxCommandsPerMinute := 30
    maxConcurrentTabs := 3
    maxResponseBodyBytes := 5 * 1024 * 1024
    agentWebSocketUrl := "ws://localhost:8000/ws/extension" }

/-- Modelled from the spec: `MAX_PAGES_PER_TERM` is imported by
`service_worker.js` from `settings.js`, but its definition is not among the
provided sources; the spec fixes the default at 5 pages per term. -/
def MAX_PAGES_PER_TERM : Nat := 5

/-! ### URL parsing model

The service worker calls the browser's `new URL(...)` and reads `.hostname`.
That runtime facility is modelled here for the forms the extension
exercises: a `scheme://host/...` URL yields its (lowercased) host, an
http(s) URL must have a non-empty host after `//`, a non-http(s) scheme
yields an empty hostname (as WHATWG does for e.g. `mailto:`), and a string
with no valid scheme does not parse (in JS, `new URL` throws). -/

/-- Characters permitted after the first character of a URL scheme. -/
def isSchemeChar (c : Char) : Bool := c.isAlphanum || c = '+' || c = '-' || c = '.'

/-- Characters that end the host section of a URL. -/
def isHostEndChar (c : Char) : Bool := c = '/' || c = '?' || c = '#' || c = ':' || c = '\\'

/-- Split off a leading `scheme:`; fails when the string has no colon or the
scheme is malformed. -/
def splitScheme (s : String) : Option (String × String) :=
  match s.data.findIdx? (fun c => c = ':') with
  | none => none
  | some i =>
    match s.data.take i with
    | [] => none
    | c :: rest =>
      if c.isAlpha && rest.all isSchemeChar then
        some (jsToLower ⟨c :: rest⟩, ⟨s.data.drop (i + 1)⟩)
      else none

/-- Model of `new URL(s).hostname`; `none` models the constructor throwing. -/
def parseUrlHostname (s : String) : Option String :=
  match splitScheme s with
  | none => none
  | some (scheme, rest) =>
    if scheme = "http" || scheme = "https" then
      if jsStartsWith rest "//" then
        match (jsDrop rest 2).data.takeWhile (fun c => !isHostEndChar c) with
        | [] => none
        | host => some (jsToLower ⟨host⟩)
      else none
    else some ""

/-! ### Domain gate (`matchesOrigin`, `isCommandDomainAllowed`) -/

/-- `originPattern.replace(/^https?:\/\//i, "")`. -/
def stripScheme (s : String) : String :=
  if jsToLower (jsTake s 7) = "http://" then jsDrop s 7
  else if jsToLower (jsTake s 8) = "https://" then jsDrop s 8
  else s

/-- `.replace(/\/$/, "")`. -/
def stripTrailingSlash (s : String) : String :=
  if jsEndsWith s "/" then jsDropLast s else s

/-- The pattern normalization in `matchesOrigin`: strip scheme, strip one
trailing slash, lowercase. -/
def normalizePattern (p : String) : String :=
  jsToLower (stripTrailingSlash (stripScheme p))

/-- The host comparison of `matchesOrigin`, after normalization:
`*.d` matches `d` or `*.d`-suffixed hosts; a bare pattern matches the host
itself or any `.`-separated suffix extension. -/
def matchesCore (hostname np : String) : Bool :=
  if jsStartsWith np "*." then
    hostname == jsDrop np 2 || jsEndsWith hostname ("." ++ jsDrop np 2)
  else
    hostname == np || jsEndsWith hostname ("." ++ np)

/-- `matchesOrigin(url, originPattern)` from `service_worker.js` (the url
argument is represented by its hostname). A falsy (empty) pattern matches
nothing. -/
def matchesOrigin (hostname pat : String) : Bool :=
  if pat = "" then false
  else matchesCore (jsToLower hostname) (normalizePattern pat)

/-- `isCommandDomainAllowed(command, settings)`: commands without a truthy
`payload.url` pass; a URL that fails to parse is denied; otherwise some
allowed-origin pattern must match the hostname. -/
def isCommandDomainAllowed (cmd : Command) (settings : Settings) : Bool :=
  match cmd.payload.url with
  | none => true
  | some u =>
    if u = "" then true
    else
      match parseUrlHostname u with
      | none => false
      | some host => settings.allowedOrigins.any (fun o => matchesOrigin host o)

/-! ### Log store and service-worker state -/

/-- A persisted log entry; `url` holds either the command URL or (JS falls
back to it) the numeric tab id. `timestamp` stands in for the ISO string. -/
structure LogEntry where
  id : String
  type : String
  status : String
  errorCode : Option String
  timestamp : Int
  url : Option (String ⊕ Nat)
deriving DecidableEq, Repr

/-- The `command.payload?.tabId` part of the log `url` fallback. -/
def logTabField (cmd : Command) : Option (String ⊕ Nat) :=
  match cmd.payload.tabId with
  | some t => if t ≠ 0 then some (Sum.inr t) else none
  | none => none

/-- `command.payload?.url || command.payload?.tabId || null`. -/
def logUrlField (cmd : Command) : Option (String ⊕ Nat) :=
  match cmd.payload.url with
  | some u => if u ≠ "" then some (Sum.inl u) else logTabField cmd
  | none => logTabField cmd

/-- Build the log entry appended by `logCommand`. -/
def mkLogEntry (cmd : Command) (status : String) (errorCode : Option String)
    (now : Int) : LogEntry :=
  { id := cmd.id
    type := cmd.type
    status := status
    errorCode := match errorCode with
      | some e => if e ≠ "" then some e else none
      | none => none
    timestamp := now
    url := logUrlField cmd }

/-- In-memory `commandLogs` ring: push then drop one from the front past 100. -/
def trimCommandLogs (l : List LogEntry) : List LogEntry :=
  if 100 < l.length then l.drop 1 else l

/-- Persisted `logs` ring: push then keep the most recent 200. -/
def trimStoredLogs (l : List LogEntry) : List LogEntry :=
  if 200 < l.length then l.drop (l.length - 200) else l

/-- The mutable service-worker state touched by command admission. -/
structure SWState where
  queue : List Command := []
  commandLogs : List LogEntry := []
  logs : List LogEntry := []
  recentCommandTimestamps : List Int := []
deriving DecidableEq, Repr

/-- `logCommand`: append the entry to both bounded logs. -/
def appendLog (e : LogEntry) (st : SWState) : SWState :=
  { st with
    commandLogs := trimCommandLogs (st.commandLogs ++ [e])
    logs := trimStoredLogs (st.logs ++ [e]) }

/-! ### Rate limiter (`enforceRateLimit`) -/

/-- The pruning loop: shift off timestamps older than `now - 60000`. -/
def pruneWindow (now : Int) (ts : List Int) : List Int :=
  ts.dropWhile (fun t => decide (t < now - 60000))

/-- One `enforceRateLimit` call: prune, then either reject (recording
nothing beyond the prune) or record `now`. -/
def admitStep (m : Nat) (now : Int) (ts : List Int) : Bool × List Int :=
  let pruned := pruneWindow now ts
  if m ≤ pruned.length then (false, pruned) else (true, pruned ++ [now])

/-- The value `handleIncomingCommand` resolves with on the non-throwing
paths. -/
structure EnqueueResult where
  status : String
  error : Option String
deriving DecidableEq, Repr

/-- `handleIncomingCommand(command)`: id/type validation, agent-control
check, rate limit, domain gate, then enqueue. `Except.error` models the JS
function throwing (with the thrown `Error`'s message). -/
def handleIncomingCommand (cmd : Command) (settings : Settings) (now : Int)
    (st : SWState) : Except String EnqueueResult × SWState :=
  if cmd.id = "" ∨ cmd.type = "" then
    (Except.error "Command must include id and type", st)
  else if settings.agentControlEnabled = false then
    (Except.error "Agent control is disabled", st)
  else
    let step := admitStep settings.maxCommandsPerMinute now st.recentCommandTimestamps
    if step.1 = false then
      (Except.error "RATE_LIMITED", { st with recentCommandTimestamps := step.2 })
    else
      let st1 := { st with recentCommandTimestamps := step.2 }
      if isCommandDomainAllowed cmd settings = false then
        (Except.ok { status := "rejected", error := some "DOMAIN_NOT_ALLOWED" },
         appendLog (mkLogEntry cmd "rejected" (some "DOMAIN_NOT_ALLOWED") now) st1)
      else
        (Except.ok { status := "queued", error := none },
         { st1 with queue := st1.queue ++ [cmd] })

/-- Replay a sorted sequence of `enforceRateLimit` calls, accumulating the
window state and the list of admitted instants. -/
def runRate (m : Nat) : List Int → List Int → List Int → List Int × List Int
  | [], ts, adm => (ts, adm)
  | c :: cs, ts, adm =>
    match admitStep m c ts with
    | (true, ts1) => runRate m cs ts1 (adm ++ [c])
    | (false, ts1) => runRate m cs ts1 adm

/-- The instants at which a call sequence was admitted, starting empty. -/
def admittedTimes (m : Nat) (calls : List Int) : List Int :=
  (runRate m calls [] []).2

/-- Number of entries of `l` lying in the closed 60-second window ending at
`T`. -/
def windowCount (T : Int) (l : List Int) : Nat :=
  l.countP (fun t => decide (T - 60000 ≤ t ∧ t ≤ T))

/-- Every element of the list was admitted with fewer than `m` earlier
admissions inside its own trailing 60-second window (`pre` accumulates the
earlier elements). -/
def GoodAdmAux (m : Nat) : List Int → List Int → Prop
  | _, [] => True
  | pre, x :: rest => windowCount x pre < m ∧ GoodAdmAux m (pre ++ [x]) rest

/-- `GoodAdmAux` started from an empty prefix. -/
def GoodAdm (m : Nat) (l : List Int) : Prop := GoodAdmAux m [] l

/-! ### `OPEN_URL` sub-action loop (`handleOpenUrl`, lines 276-312)

Navigation, tab creation and debugger attach are asynchronous browser I/O;
the sub-action phase that follows a successful attach is modelled here, with
`exec` standing for `executeActionCommand` (which in the source never
throws: `executeCommand` catches everything and returns a failed result). -/

/-- What a sub-action execution reports back to `handleOpenUrl`. -/
structure SubResult (ρ : Type) where
  status : String
  errorCode : Option String := none
  tabId : Option Nat := none
  records : Option (List ρ) := none

/-- The final result of `handleOpenUrl` after the sub-action loop. -/
structure OpenUrlResult (ρ : Type) where
  status : String
  tabId : Option Nat
  records : Option (List ρ)

/-- The synthesized internal command
`{id: parentId:index:type, type, payload: {...action.payload, tabId}}`. -/
def mkActionCommand (parentId : String) (tabId : Nat) (idx : Nat)
    (a : ActionSpec) : Command :=
  { id := parentId ++ ":" ++ toString idx ++ ":" ++ a.type
    type := a.type
    payload := { toBasePayload := { a.payload with tabId := some tabId }, actions := none }
    actions := none }

/-- `Array.isArray(command.payload?.actions) ? ... : Array.isArray(command.actions) ? ... : []`. -/
def effectiveActions (cmd : Command) : List ActionSpec :=
  match cmd.payload.actions with
  | some l => l
  | none =>
    match cmd.actions with
    | some l => l
    | none => []

/-- The `for (const [index, action] of actions.entries())` loop: every
action executes (failures only log a warning), the executed sub-commands are
returned in order together with the concatenation of their `records`. -/
def runSubActions (exec : Command → SubResult ρ) (parentId : String) (tabId : Nat) :
    Nat → List ActionSpec → List Command × List ρ
  | _, [] => ([], [])
  | idx, a :: rest =>
    let c := mkActionCommand parentId tabId idx a
    let r := exec c
    let next := runSubActions exec parentId tabId (idx + 1) rest
    (c :: next.1, (match r.records with | some l => l | none => []) ++ next.2)

/-- The tail of `handleOpenUrl`: run the sub-actions, then return
`completed` with the collected records (when any), also yielding the
in-order trace of executed sub-commands. -/
def handleOpenUrlSubActions (exec : Command → SubResult ρ) (cmd : Command)
    (tabId : Nat) : OpenUrlResult ρ × List Command :=
  let res := runSubActions exec cmd.id tabId 0 (effectiveActions cmd)
  if 0 < res.2.length then
    ({ status := "completed", tabId := some tabId, records := some res.2 }, res.1)
  else
    ({ status := "completed", tabId := some tabId, records := none }, res.1)

/-! ### Search task driver (`handleExecuteSearchTask`) -/

/-- The per-page observation the driver makes: either the internal
execution threw, or it returned a result with a status and the detected
active page number (`null` when detection failed or the tab id was falsy). -/
inductive SearchPageOutcome where
  | threw (message : String)
  | ran (status : String) (detected : Option Int)
deriving DecidableEq, Repr

/-- The per-page update of `keepGoing`: false on a throw, on a
non-`completed` status, or on a truthy detected page strictly below the
requested page. -/
def pageKeepGoing (o : SearchPageOutcome) (page : Nat) : Bool :=
  match o with
  | .threw _ => false
  | .ran status detected =>
    if status ≠ "completed" then false
    else
      match detected with
      | some d => if d ≠ 0 ∧ d < (page : Int) then false else true
      | none => true

/-- The `while (keepGoing && currentPage <= maxPagesPerTerm)` loop for one
term; returns the pages executed, in order. -/
def runTermGo (oracle : Nat → SearchPageOutcome) : Nat → Nat → List Nat
  | 0, _ => []
  | fuel + 1, p =>
    if pageKeepGoing (oracle p) p then p :: runTermGo oracle fuel (p + 1) else [p]

/-- Pages executed for one term, starting at page 1 with the
`MAX_PAGES_PER_TERM` budget. -/
def runTermPages (oracle : Nat → SearchPageOutcome) : List Nat :=
  runTermGo oracle MAX_PAGES_PER_TERM 1

/-- Observable steps of the search-task driver. -/
inductive SearchEvent where
  | page (commandId : String) (commandType : String) (term : String) (pageNumber : Nat)
  | exportData
deriving DecidableEq, Repr

/-- `searchTerms.filter((term) => typeof term === "string" && term.trim().length > 0)`. -/
def filterSearchTerms (v : Option (List JsVal)) : List String :=
  (match v with | some l => l | none => []).filterMap (fun t =>
    match t with
    | JsVal.str s => if 0 < (jsTrim s).data.length then some s else none
    | _ => none)

/-- The event recorded for one executed page: an internal `OPEN_URL` command
with id `commandId:term:page`. -/
def mkSearchPageEvent (cmd : Command) (term : String) (p : Nat) : SearchEvent :=
  SearchEvent.page (cmd.id ++ ":" ++ term ++ ":" ++ toString p) "OPEN_URL" term p

/-- Terminal result of `handleExecuteSearchTask`. -/
structure SearchTaskResult where
  status : String
  errorCode : Option String
deriving DecidableEq, Repr

/-- `handleExecuteSearchTask`: filter the terms (empty → `INVALID_COMMAND`),
iterate each term through its pages, then trigger the export exactly once. -/
def runSearchTask (oracle : String → Nat → SearchPageOutcome) (cmd : Command) :
    SearchTaskResult × List SearchEvent :=
  let terms := filterSearchTerms cmd.payload.searchTerms
  if terms.length = 0 then
    ({ status := "failed", errorCode := some "INVALID_COMMAND" }, [])
  else
    ({ status := "completed", errorCode := none },
     (terms.map (fun t => (runTermPages (oracle t)).map (mkSearchPageEvent cmd t))).flatten
       ++ [SearchEvent.exportData])

/-! ### DevTools JSON capture (`handleCaptureJson`) -/

/-- One buffered network response body `{url, raw}`. -/
structure CapturedBody where
  url : String
  raw : String
deriving DecidableEq, Repr

/-- A per-tab capture session (the fields `handleCaptureJson` reads). -/
structure TabSession where
  commandId : String
  capturedBodies : List CapturedBody
  captureMode : Option String := none
deriving DecidableEq, Repr

/-- A parsed capture record `{source: "raw", url, captureType, json}`. -/
structure CaptureRecord (κ : Type) where
  source : String
  url : String
  captureType : String
  json : κ
deriving DecidableEq, Repr

/-- The result of `handleCaptureJson`. -/
structure CaptureResult (κ : Type) where
  status : String
  errorCode : Option String
  records : Option (List (CaptureRecord κ))
deriving DecidableEq, Repr

/-- JS `a || b` on a possibly-absent string against a string default. -/
def jsOrElse (a : Option String) (b : String) : String :=
  match a with
  | some s => if s ≠ "" then s else b
  | none => b

/-- `command.payload?.captureType || session.captureMode || "listings"`. -/
def effectiveCaptureType (cmd : Command) (session : TabSession) : String :=
  match cmd.payload.captureType with
  | some s => if s ≠ "" then s else jsOrElse session.captureMode "listings"
  | none => jsOrElse session.captureMode "listings"

/-- `handleCaptureJson(command, settings)`: requires a truthy tab id with an
active session; keeps the existing buffer, parses each body not exceeding
`maxResponseBodyBytes` (`parse` models `JSON.parse`, `none` a thrown parse
error), and destroys the session. The sleep and tab close are browser I/O
with no effect on this state. -/
def handleCaptureJson (parse : String → Option κ) (cmd : Command)
    (settings : Settings) (sessions : List (Nat × TabSession)) :
    CaptureResult κ × List (Nat × TabSession) :=
  match cmd.payload.tabId with
  | none => ({ status := "failed", errorCode := some "INVALID_COMMAND", records := none }, sessions)
  | some tabId =>
    if tabId = 0 then
      ({ status := "failed", errorCode := some "INVALID_COMMAND", records := none }, sessions)
    else
      match List.lookup tabId sessions with
      | none =>
        ({ status := "failed", errorCode := some "INVALID_COMMAND", records := none }, sessions)
      | some session =>
        let ct := effectiveCaptureType cmd session
        let session1 := { session with captureMode := some ct }
        let recordCt := jsOrElse session1.captureMode "listings"
        let parsed := session1.capturedBodies.filterMap (fun b =>
          if settings.maxResponseBodyBytes < b.raw.data.length then none
          else
            match parse b.raw with
            | some j => some { source := "raw", url := b.url, captureType := recordCt, json := j }
            | none => none)
        ({ status := "completed", errorCode := none, records := some parsed },
         sessions.filter (fun p => decide (p.1 ≠ tabId)))

/-! ### Agent bridge (`agent_bridge.js`) -/

/-- `calculateBackoff(attempt)` with `MAX_BACKOFF_MS = 15000`,
`BASE_BACKOFF_MS = 1000`. -/
def calculateBackoff (attempt : Nat) : Nat :=
  min 15000 (1000 * min attempt 5 * min attempt 5)

/-- An inbound frame as `handleIncomingMessage` inspects it. -/
structure AgentFrame (α : Type) where
  envelope : Option String
  requestId : Option String
  payload : α

/-- The payload of a response frame: either the handler's value, or the
`{ok: false, error}` object built when the handler threw. -/
inductive BridgePayload (β : Type) where
  | response (value : β)
  | failure (error : String)
deriving DecidableEq, Repr

/-- An emitted `extension-response` frame. -/
structure ResponseFrame (β : Type) where
  envelope : String
  requestId : Option String
  payload : BridgePayload β

/-- `safeHandleRequest`: catch a thrown error and turn it into
`{ok: false, error: error?.message || "UNKNOWN_ERROR"}`. -/
def safeHandleRequest (handler : α → Except String β) (p : α) : BridgePayload β :=
  match handler p with
  | Except.ok r => BridgePayload.response r
  | Except.error e => BridgePayload.failure (if e = "" then "UNKNOWN_ERROR" else e)

/-- `handleIncomingMessage`: an `agent-message` envelope yields exactly one
emitted `extension-response` frame with the same `requestId`; any other
frame emits nothing. -/
def handleIncomingMessage (handler : α → Except String β) (msg : AgentFrame α) :
    List (ResponseFrame β) :=
  if msg.envelope = some "agent-message" then
    [{ envelope := "extension-response", requestId := msg.requestId,
       payload := safeHandleRequest handler msg.payload }]
  else []

/-! ### Concrete inputs used by witnesses and counterexamples -/

/-- A command carrying only a URL. -/
def mkUrlCommand (u : String) : Command :=
  { id := "c", type := "OPEN_URL", payload := { url := some u } }

/-- Settings allowing only the wildcard pattern of the spec's test vector. -/
def wildcardSettings : Settings :=
  { DEFAULT_SETTINGS with allowedOrigins := ["*.example.com"] }

/-- Settings allowing only the bare pattern of the spec's test vector. -/
def bareSettings : Settings :=
  { DEFAULT_SETTINGS with allowedOrigins := ["example.com"] }

/-- A command missing its id. -/
def c3Command : Command := { id := "", type := "WAIT" }

/-- Default settings with agent control switched on. -/
def enabledSettings : Settings := { DEFAULT_SETTINGS with agentControlEnabled := true }

/-- A command whose URL host matches no default allowed origin. -/
def c2Command : Command :=
  { id := "a", type := "OPEN_URL", payload := { url := some "https://example.com/" } }

/-- A sub-action executor that always fails and returns no records. -/
def c5FailExec : Command → SubResult Nat := fun _ =>
  { status := "failed", errorCode := some "CONTENT_SCRIPT_ERROR" }

/-- An `OPEN_URL` command with two sub-actions. -/
def c5Command : Command :=
  { id := "p", type := "OPEN_URL"
    payload := { url := some "https://www.etsy.com/"
                 actions := some [{ type := "SCROLL_TO_BOTTOM" }, { type := "EXTRACT_SCHEMA" }] } }

/-- A page oracle whose every page completes with no detected page number. -/
def c6Oracle : String → Nat → SearchPageOutcome := fun _ _ =>
  SearchPageOutcome.ran "completed" none

/-- A search-task command with one effective term. -/
def c6Command : Command :=
  { id := "s", type := "EXECUTE_SEARCH_TASK"
    payload := { searchTerms := some [JsVal.str "lamp"] } }

/-- A toy `JSON.parse` model accepting only the empty object. -/
def c7Parse : String → Option Nat := fun s => if s = "{}" then some 0 else none

/-- A capture session holding one parseable and one unparseable body. -/
def c7Session : TabSession :=
  { commandId := "b"
    capturedBodies :=
      [{ url := "https://www.etsy.com/api/listings", raw := "{}" },
       { url := "https://www.etsy.com/api/reviews", raw := "not json" }] }

/-- A capture command addressing tab 5. -/
def c7Command : Command :=
  { id := "b:3:CAPTURE_JSON_FROM_DEVTOOLS", type := "CAPTURE_JSON_FROM_DEVTOOLS"
    payload := { tabId := some 5 } }

/-- A control handler that always throws. -/
def c9Handler : Nat → Except String Nat := fun _ => Except.error "boom"

/-- A request frame bearing the `agent-message` envelope. -/
def c9Frame : AgentFrame Nat :=
  { envelope := some "agent-message", requestId := some "r1", payload := 0 }

/-! ## Theorems -/

/-- C1 (counterexample): the claim asserts that every command whose
`payload.url` is not a parseable URL is denied by the gate. A command
carrying the empty string as its URL refutes this: `""` does not parse
(`new URL("")` throws), yet the gate treats the falsy URL as absent and
returns `true`. -/
theorem domainGate_c1_counterexample :
    parseUrlHostname "" = none ∧
    isCommandDomainAllowed (mkUrlCommand "") DEFAULT_SETTINGS = true := by
  exact ⟨rfl, rfl⟩

/-- C1 (amended): the gate normalizes each non-empty pattern (strip scheme
and trailing slash, lowercase) and matches the lowercased host against it; a
normalized pattern starting with `*.` matches the host `d` or any host
ending in `.d`, and a bare normalized pattern matches the host itself or
any host ending in `.` followed by it; a command whose `payload.url` is a
non-empty string that fails to parse is denied. The spec's concrete
pattern-matching vectors hold. (The empty-string URL bypasses the gate; see
the counterexample.) -/
theorem domainGate_c1 :
    (∀ h p : String, p ≠ "" →
        matchesOrigin h p = matchesCore (jsToLower h) (normalizePattern p)) ∧
    (∀ h np : String, jsStartsWith np "*." = true →
        matchesCore h np = (h == jsDrop np 2 || jsEndsWith h ("." ++ jsDrop np 2))) ∧
    (∀ h np : String, jsStartsWith np "*." = false →
        matchesCore h np = (h == np || jsEndsWith h ("." ++ np))) ∧
    (∀ (cmd : Command) (settings : Settings) (u : String),
        cmd.payload.url = some u → u ≠ "" → parseUrlHostname u = none →
        isCommandDomainAllowed cmd settings = false) ∧
    (isCommandDomainAllowed (mkUrlCommand "https://a.example.com/x") wildcardSettings = true ∧
     isCommandDomainAllowed (mkUrlCommand "https://example.com") wildcardSettings = true ∧
     isCommandDomainAllowed (mkUrlCommand "https://evilexample.com") bareSettings = false ∧
     isCommandDomainAllowed (mkUrlCommand "not a url") wildcardSettings = false) := by
  refine ⟨?_, ?_, ?_, ?_, by decide, by decide, by decide, by decide⟩
  · intro h p hp
    unfold matchesOrigin
    rw [if_neg hp]
  · intro h np hs
    unfold matchesCore
    rw [if_pos hs]
  · intro h np hs
    unfold matchesCore
    rw [if_neg (by simp [hs])]
  · intro cmd settings u hu hne hparse
    unfold isCommandDomainAllowed
    rw [hu]
    simp [hne, hparse]

/-- C1 (witness): the amended theorem applied at the wildcard pattern of the
spec's vector. -/
theorem domainGate_c1_witness :
    ("*.example.com" : String) ≠ "" ∧
    matchesOrigin "shop.example.com" "*.example.com"
      = matchesCore (jsToLower "shop.example.com") (normalizePattern "*.example.com") :=
  ⟨by decide, domainGate_c1.1 "shop.example.com" "*.example.com" (by decide)⟩

/-- C8: for every reconnect attempt `k ≥ 1` the bridge backoff delay is
`min(15000, 1000 * min(k, 5)^2)` milliseconds, and attempts 1..7 yield
1000, 4000, 9000, 15000, 15000, 15000, 15000 ms. -/
theorem backoff_c8 (k : Nat) (_hk : 1 ≤ k) :
    calculateBackoff k = min 15000 (1000 * min k 5 ^ 2) ∧
    (List.range' 1 7).map calculateBackoff
      = [1000, 4000, 9000, 15000, 15000, 15000, 15000] := by
  constructor
  · unfold calculateBackoff
    rw [pow_two, mul_assoc]
  · decide

/-- C8 (witness): the backoff theorem applied at attempt 4 (the first capped
attempt). -/
theorem backoff_c8_witness :
    1 ≤ 4 ∧ calculateBackoff 4 = min 15000 (1000 * min 4 5 ^ 2) :=
  ⟨by decide, (backoff_c8 4 (by decide)).1⟩

/-- C9: every incoming frame with envelope `agent-message` and request id
`R` makes the bridge emit exactly one `extension-response` frame carrying
`R`, whose payload is the handler's result; when the handler throws, that
payload is the `{ok: false, error}` object rather than the frame being
dropped. -/
theorem bridge_c9 (handler : α → Except String β) (msg : AgentFrame α)
    (henv : msg.envelope = some "agent-message") :
    handleIncomingMessage handler msg
        = [{ envelope := "extension-response", requestId := msg.requestId,
             payload := safeHandleRequest handler msg.payload }] ∧
    (∀ e, handler msg.payload = Except.error e →
        safeHandleRequest handler msg.payload
          = BridgePayload.failure (if e = "" then "UNKNOWN_ERROR" else e)) := by
  constructor
  · unfold handleIncomingMessage
    rw [if_pos henv]
  · intro e he
    unfold safeHandleRequest
    rw [he]

/-- C9 (witness): the bridge theorem applied to a throwing handler. -/
theorem bridge_c9_witness :
    c9Frame.envelope = some "agent-message" ∧
    handleIncomingMessage c9Handler c9Frame
      = [{ envelope := "extension-response", requestId := c9Frame.requestId,
           payload := safeHandleRequest c9Handler c9Frame.payload }] :=
  ⟨rfl, (bridge_c9 c9Handler c9Frame rfl).1⟩

/-- C3 (counterexample): the claim asserts that a command missing its id
fails with error code `INVALID_COMMAND` and that the rejection is logged.
In the source, `handleIncomingCommand` throws
`Error("Command must include id and type")` before reaching `logCommand`:
the surfaced error string is not `INVALID_COMMAND` and the state (both
logs, queue, rate window) is untouched. -/
theorem invalidCommand_c3_counterexample :
    (handleIncomingCommand c3Command enabledSettings 0 {}).1
        = Except.error "Command must include id and type" ∧
    (handleIncomingCommand c3Command enabledSettings 0 {}).2 = ({} : SWState) ∧
    "Command must include id and type" ≠ "INVALID_COMMAND" := by
  exact ⟨rfl, rfl, by decide⟩

/-- C3 (amended): a command missing id or type makes `enqueue` throw with
message `"Command must include id and type"`, and a command submitted while
agent control is disabled makes it throw with message
`"Agent control is disabled"`; in both cases the state is unchanged — the
command is never queued and, unlike the domain-gate rejection, nothing is
logged. -/
theorem invalidOrDisabled_c3 (cmd : Command) (settings : Settings) (now : Int)
    (st : SWState) :
    (cmd.id = "" ∨ cmd.type = "" →
      handleIncomingCommand cmd settings now st
        = (Except.error "Command must include id and type", st)) ∧
    (cmd.id ≠ "" → cmd.type ≠ "" → settings.agentControlEnabled = false →
      handleIncomingCommand cmd settings now st
        = (Except.error "Agent control is disabled", st)) := by
  constructor
  · intro h
    unfold handleIncomingCommand
    rw [if_pos h]
  · intro h1 h2 h3
    unfold handleIncomingCommand
    rw [if_neg (by simp [h1, h2]), if_pos h3]

/-- C3 (witness): the amended theorem applied to the concrete id-less
command. -/
theorem invalidOrDisabled_c3_witness :
    (c3Command.id = "" ∨ c3Command.type = "") ∧
    handleIncomingCommand c3Command enabledSettings 0 {}
      = (Except.error "Command must include id and type", ({} : SWState)) :=
  ⟨Or.inl rfl, (invalidOrDisabled_c3 c3Command enabledSettings 0 {}).1 (Or.inl rfl)⟩

/-- A URL whose parsed host matches no allowed-origin pattern is denied by
the gate. -/
theorem gate_denies_of_no_match (cmd : Command) (settings : Settings)
    (u host : String) (hu : cmd.payload.url = some u) (hne : u ≠ "")
    (hparse : parseUrlHostname u = some host)
    (hnomatch : ∀ p ∈ settings.allowedOrigins, matchesOrigin host p = false) :
    isCommandDomainAllowed cmd settings = false := by
  unfold isCommandDomainAllowed
  rw [hu]
  simp only [hne, hparse, if_neg, ite_false, List.any_eq_false]
  intro o ho
  simp [hne, hnomatch o ho]

/-- On the domain-rejected path, `handleIncomingCommand` resolves with the
rejection, records the admission instant, and appends exactly the rejection
log entry. -/
theorem handleIncoming_rejected (cmd : Command) (settings : Settings) (now : Int)
    (st : SWState) (hid : cmd.id ≠ "") (htype : cmd.type ≠ "")
    (hen : settings.agentControlEnabled = true)
    (hrate : (pruneWindow now st.recentCommandTimestamps).length
        < settings.maxCommandsPerMinute)
    (hgate : isCommandDomainAllowed cmd settings = false) :
    handleIncomingCommand cmd settings now st =
      (Except.ok { status := "rejected", error := some "DOMAIN_NOT_ALLOWED" },
       appendLog (mkLogEntry cmd "rejected" (some "DOMAIN_NOT_ALLOWED") now)
         { st with recentCommandTimestamps :=
             pruneWindow now st.recentCommandTimestamps ++ [now] }) := by
  have hstep : admitStep settings.maxCommandsPerMinute now st.recentCommandTimestamps
      = (true, pruneWindow now st.recentCommandTimestamps ++ [now]) := by
    unfold admitStep
    simp [Nat.not_le.mpr hrate]
  unfold handleIncomingCommand
  rw [if_neg (by simp [hid, htype]), if_neg (by simp [hen])]
  simp only [hstep, hgate]
  simp

/-- C2: a command whose `payload.url` host matches no allowed-origin
pattern, arriving past the id/type, agent-enabled and rate-limit checks, is
answered with `{status: "rejected", error: "DOMAIN_NOT_ALLOWED"}`, a log
entry recording the rejection is appended to the persisted log ring, and
the queue is left unchanged. -/
theorem domainRejection_c2 (cmd : Command) (settings : Settings) (now : Int)
    (st : SWState) (u host : String)
    (hid : cmd.id ≠ "") (htype : cmd.type ≠ "")
    (hen : settings.agentControlEnabled = true)
    (hrate : (pruneWindow now st.recentCommandTimestamps).length
        < settings.maxCommandsPerMinute)
    (hu : cmd.payload.url = some u) (hne : u ≠ "")
    (hparse : parseUrlHostname u = some host)
    (hnomatch : ∀ p ∈ settings.allowedOrigins, matchesOrigin host p = false) :
    (handleIncomingCommand cmd settings now st).1
        = Except.ok { status := "rejected", error := some "DOMAIN_NOT_ALLOWED" } ∧
    (handleIncomingCommand cmd settings now st).2.queue = st.queue ∧
    (handleIncomingCommand cmd settings now st).2.logs
        = trimStoredLogs
            (st.logs ++ [mkLogEntry cmd "rejected" (some "DOMAIN_NOT_ALLOWED") now]) ∧
    (mkLogEntry cmd "rejected" (some "DOMAIN_NOT_ALLOWED") now).status = "rejected" ∧
    (mkLogEntry cmd "rejected" (some "DOMAIN_NOT_ALLOWED") now).errorCode
        = some "DOMAIN_NOT_ALLOWED" := by
  have hgate := gate_denies_of_no_match cmd settings u host hu hne hparse hnomatch
  rw [handleIncoming_rejected cmd settings now st hid htype hen hrate hgate]
  refine ⟨rfl, rfl, rfl, rfl, ?_⟩
  simp [mkLogEntry]

/-- C2 (witness): the rejection theorem applied to a concrete
`https://example.com/` command against the default etsy-only origins. -/
theorem domainRejection_c2_witness :
    c2Command.id ≠ "" ∧ c2Command.type ≠ "" ∧
    enabledSettings.agentControlEnabled = true ∧
    (pruneWindow 0 (({} : SWState)).recentCommandTimestamps).length
        < enabledSettings.maxCommandsPerMinute ∧
    c2Command.payload.url = some "https://example.com/" ∧
    ("https://example.com/" : String) ≠ "" ∧
    parseUrlHostname "https://example.com/" = some "example.com" ∧
    (∀ p ∈ enabledSettings.allowedOrigins, matchesOrigin "example.com" p = false) ∧
    (handleIncomingCommand c2Command enabledSettings 0 {}).1
      = Except.ok { status := "rejected", error := some "DOMAIN_NOT_ALLOWED" } :=
  ⟨by decide, by decide, by decide, by decide, rfl, by decide, by decide, by decide,
   (domainRejection_c2 c2Command enabledSettings 0 {} "https://example.com/"
      "example.com" (by decide) (by decide) (by decide) (by decide) rfl (by decide)
      (by decide) (by decide)).1⟩

/-- On a sorted list, the front-pruning loop removes exactly the entries
below the cutoff. -/
theorem dropWhile_lt_eq_filter (cut : Int) :
    ∀ l : List Int, l.Pairwise (fun a b => a ≤ b) →
      l.dropWhile (fun t => decide (t < cut)) = l.filter (fun t => decide (cut ≤ t)) := by
  intro l
  induction l with
  | nil =>
    intro _
    rfl
  | cons a l ih =>
    intro h
    obtain ⟨ha, hl⟩ := List.pairwise_cons.mp h
    by_cases hac : a < cut
    · have h1 : decide (a < cut) = true := decide_eq_true hac
      have h2 : decide (cut ≤ a) = false := decide_eq_false (by omega)
      rw [List.dropWhile_cons, List.filter_cons, h1, h2]
      rw [if_pos rfl, if_neg (by simp)]
      exact ih hl
    · have hca : cut ≤ a := by omega
      have h1 : decide (a < cut) = false := decide_eq_false hac
      have h2 : decide (cut ≤ a) = true := decide_eq_true hca
      rw [List.dropWhile_cons, List.filter_cons, h1, h2]
      rw [if_neg (by simp), if_pos rfl]
      have hself : l.filter (fun t => decide (cut ≤ t)) = l := by
        apply List.filter_eq_self.mpr
        intro b hb
        exact decide_eq_true (le_trans hca (ha b hb))
      rw [hself]

/-- Appending one admission to a good history is good exactly when the new
instant sees fewer than `m` earlier admissions in its window. -/
theorem goodAdmAux_append (m : Nat) :
    ∀ (l pre : List Int) (c : Int),
      GoodAdmAux m pre (l ++ [c]) ↔
        GoodAdmAux m pre l ∧ windowCount c (pre ++ l) < m := by
  intro l
  induction l with
  | nil =>
    intro pre c
    simp [GoodAdmAux]
  | cons x xs ih =>
    intro pre c
    rw [List.cons_append]
    simp only [GoodAdmAux]
    rw [ih (pre ++ [x]) c, List.append_assoc, List.singleton_append]
    exact and_assoc.symm

/-- A sorted, good admission history has at most `m` entries in every
closed 60-second window. -/
theorem windowCount_le_of_good (m : Nat) :
    ∀ adm : List Int, adm.Pairwise (fun a b => a ≤ b) → GoodAdm m adm →
      ∀ T : Int, windowCount T adm ≤ m := by
  intro adm
  induction adm using List.reverseRecOn with
  | nil =>
    intro _ _ T
    simp [windowCount]
  | append_singleton xs x ih =>
    intro hs hg T
    obtain ⟨hgxs, hwx⟩ := (goodAdmAux_append m xs [] x).mp hg
    rw [List.nil_append] at hwx
    obtain ⟨hsxs, _, hax⟩ := List.pairwise_append.mp hs
    have hax1 : ∀ a ∈ xs, a ≤ x := fun a ha => hax a ha x (List.mem_singleton.mpr rfl)
    rw [windowCount, List.countP_append]
    by_cases hx : T - 60000 ≤ x ∧ x ≤ T
    · have h1 : List.countP (fun t => decide (T - 60000 ≤ t ∧ t ≤ T)) xs
          ≤ List.countP (fun t => decide (x - 60000 ≤ t ∧ t ≤ x)) xs := by
        apply List.countP_mono_left
        intro a ha hpa
        have haa := of_decide_eq_true hpa
        exact decide_eq_true ⟨by omega, hax1 a ha⟩
      have h2 : List.countP (fun t => decide (T - 60000 ≤ t ∧ t ≤ T)) [x] ≤ 1 := by
        rw [List.countP_cons, List.countP_nil]
        split <;> omega
      have h3 : List.countP (fun t => decide (x - 60000 ≤ t ∧ t ≤ x)) xs < m := hwx
      omega
    · have h0 : List.countP (fun t => decide (T - 60000 ≤ t ∧ t ≤ T)) [x] = 0 := by
        rw [List.countP_cons, List.countP_nil]
        have hdx : decide (T - 60000 ≤ x ∧ x ≤ T) = false := decide_eq_false hx
        rw [hdx]
        simp
      have h4 : List.countP (fun t => decide (T - 60000 ≤ t ∧ t ≤ T)) xs ≤ m :=
        ih hsxs hgxs T
      omega

/-- Invariant of the admission replay: starting from a good, sorted history
whose live window is exactly the filtered history, the admitted list stays
sorted and good. -/
theorem runRate_admitted_invariant (m : Nat) :
    ∀ (calls adm : List Int) (prev : Int),
      calls.Pairwise (fun a b => a ≤ b) →
      (∀ c ∈ calls, prev ≤ c) →
      adm.Pairwise (fun a b => a ≤ b) →
      (∀ x ∈ adm, x ≤ prev) →
      GoodAdm m adm →
      (runRate m calls (adm.filter (fun t => decide (prev - 60000 ≤ t))) adm).2.Pairwise
          (fun a b => a ≤ b) ∧
      GoodAdm m (runRate m calls (adm.filter (fun t => decide (prev - 60000 ≤ t))) adm).2 := by
  intro calls
  induction calls with
  | nil =>
    intro adm prev _ _ h3 _ h5
    exact ⟨h3, h5⟩
  | cons c cs ih =>
    intro adm prev h1 h2 h3 h4 h5
    obtain ⟨hcall, h1x⟩ := List.pairwise_cons.mp h1
    have hpc : prev ≤ c := h2 c (List.mem_cons_self c cs)
    have hsts : (adm.filter (fun t => decide (prev - 60000 ≤ t))).Pairwise
        (fun a b => a ≤ b) := List.Pairwise.filter _ h3
    have hts : pruneWindow c (adm.filter (fun t => decide (prev - 60000 ≤ t)))
        = adm.filter (fun t => decide (c - 60000 ≤ t)) := by
      unfold pruneWindow
      rw [dropWhile_lt_eq_filter (c - 60000) _ hsts, List.filter_filter]
      apply List.filter_congr
      intro a _
      by_cases hca : c - 60000 ≤ a
      · have hpa : prev - 60000 ≤ a := by omega
        simp [hca, hpa]
      · simp [hca]
    have hcount : (adm.filter (fun t => decide (c - 60000 ≤ t))).length
        = List.countP (fun t => decide (c - 60000 ≤ t ∧ t ≤ c)) adm := by
      have hfc : adm.filter (fun t => decide (c - 60000 ≤ t))
          = adm.filter (fun t => decide (c - 60000 ≤ t ∧ t ≤ c)) := by
        apply List.filter_congr
        intro a ha
        have hac : a ≤ c := le_trans (h4 a ha) hpc
        by_cases hca : c - 60000 ≤ a
        · simp [hca, hac]
        · simp [hca]
      rw [hfc, ← List.countP_eq_length_filter]
    by_cases hcap : m ≤ (adm.filter (fun t => decide (c - 60000 ≤ t))).length
    · have hstep : admitStep m c (adm.filter (fun t => decide (prev - 60000 ≤ t)))
          = (false, adm.filter (fun t => decide (c - 60000 ≤ t))) := by
        simp only [admitStep]
        rw [hts, if_pos hcap]
      have hrun : runRate m (c :: cs) (adm.filter (fun t => decide (prev - 60000 ≤ t))) adm
          = runRate m cs (adm.filter (fun t => decide (c - 60000 ≤ t))) adm := by
        simp only [runRate, hstep]
      rw [hrun]
      exact ih adm c h1x hcall h3 (fun x hx => le_trans (h4 x hx) hpc) h5
    · have hwc : List.countP (fun t => decide (c - 60000 ≤ t ∧ t ≤ c)) adm < m := by
        rw [← hcount]
        omega
      have hstep : admitStep m c (adm.filter (fun t => decide (prev - 60000 ≤ t)))
          = (true, adm.filter (fun t => decide (c - 60000 ≤ t)) ++ [c]) := by
        simp only [admitStep]
        rw [hts, if_neg (by omega)]
      have hfapp : (adm ++ [c]).filter (fun t => decide (c - 60000 ≤ t))
          = adm.filter (fun t => decide (c - 60000 ≤ t)) ++ [c] := by
        rw [List.filter_append]
        simp [show (c : Int) - 60000 ≤ c by omega]
      have hrun : runRate m (c :: cs) (adm.filter (fun t => decide (prev - 60000 ≤ t))) adm
          = runRate m cs ((adm ++ [c]).filter (fun t => decide (c - 60000 ≤ t)))
              (adm ++ [c]) := by
        simp only [runRate, hstep]
        rw [hfapp]
      rw [hrun]
      apply ih (adm ++ [c]) c h1x hcall
      · rw [List.pairwise_append]
        refine ⟨h3, by simp, ?_⟩
        intro a ha b hb
        rw [List.mem_singleton] at hb
        subst hb
        exact le_trans (h4 a ha) hpc
      · intro x hx
        rcases List.mem_append.mp hx with hm | hm
        · exact le_trans (h4 x hm) hpc
        · rw [List.mem_singleton] at hm
          subst hm
          exact le_refl x
      · exact (goodAdmAux_append m adm [] c).mpr
          ⟨h5, by rw [List.nil_append]; exact hwc⟩

/-- C4: each `enforceRateLimit` call first prunes instants older than
`now - 60s`; it then fails with `RATE_LIMITED` recording nothing further
when the pruned window has at least `maxCommandsPerMinute` entries, and
otherwise records `now`; consequently, for a (chronologically ordered)
call sequence the number of admitted instants in any closed 60-second
window never exceeds `maxCommandsPerMinute`. -/
theorem rateLimiter_c4 (m : Nat) (calls : List Int)
    (hsorted : calls.Pairwise (fun a b => a ≤ b)) :
    (∀ (now : Int) (ts : List Int), m ≤ (pruneWindow now ts).length →
        admitStep m now ts = (false, pruneWindow now ts)) ∧
    (∀ (now : Int) (ts : List Int), (pruneWindow now ts).length < m →
        admitStep m now ts = (true, pruneWindow now ts ++ [now])) ∧
    (∀ T : Int, windowCount T (admittedTimes m calls) ≤ m) := by
  refine ⟨?_, ?_, ?_⟩
  · intro now ts h
    simp only [admitStep]
    rw [if_pos h]
  · intro now ts h
    simp only [admitStep]
    rw [if_neg (by omega)]
  · intro T
    cases calls with
    | nil =>
      simp [admittedTimes, runRate, windowCount]
    | cons c cs =>
      have h2 : ∀ x ∈ c :: cs, c ≤ x := by
        intro x hx
        rcases List.mem_cons.mp hx with hm | hm
        · subst hm
          exact le_refl x
        · exact (List.pairwise_cons.mp hsorted).1 x hm
      have hinv := runRate_admitted_invariant m (c :: cs) [] c hsorted h2
        List.Pairwise.nil (by intro x hx; cases hx) (by simp [GoodAdm, GoodAdmAux])
      exact windowCount_le_of_good m _ hinv.1 hinv.2 T

/-- C4 (witness): the window bound instantiated on a concrete sorted call
sequence with ceiling 2. -/
theorem rateLimiter_c4_witness :
    ([0, 1000, 70000] : List Int).Pairwise (fun a b => a ≤ b) ∧
    windowCount 1000 (admittedTimes 2 [0, 1000, 70000]) ≤ 2 :=
  ⟨by decide, (rateLimiter_c4 2 [0, 1000, 70000] (by decide)).2.2 1000⟩

/-- `keepGoing` becomes false after a page exactly on the three
early-termination conditions: a throw, a non-`completed` status, or a
truthy detected page strictly below the requested page. -/
theorem pageKeepGoing_false_iff (o : SearchPageOutcome) (p : Nat) :
    pageKeepGoing o p = false ↔
      (∃ msg, o = SearchPageOutcome.threw msg) ∨
      (∃ st det, o = SearchPageOutcome.ran st det ∧ st ≠ "completed") ∨
      (∃ st d, o = SearchPageOutcome.ran st (some d) ∧ d ≠ 0 ∧ d < (p : Int)) := by
  cases o with
  | threw msg =>
    simp only [pageKeepGoing]
    constructor
    · intro _
      exact Or.inl ⟨msg, rfl⟩
    · intro _
      trivial
  | ran st det =>
    by_cases hst : st = "completed"
    · subst hst
      cases det with
      | none =>
        simp [pageKeepGoing]
      | some d =>
        by_cases hd : d ≠ 0 ∧ d < (p : Int)
        · have hkg : pageKeepGoing (SearchPageOutcome.ran "completed" (some d)) p
              = false := by
            simp [pageKeepGoing, hd]
          rw [hkg]
          constructor
          · intro _
            exact Or.inr (Or.inr ⟨"completed", d, rfl, hd.1, hd.2⟩)
          · intro _
            rfl
        · have hkg : pageKeepGoing (SearchPageOutcome.ran "completed" (some d)) p
              = true := by
            simp only [pageKeepGoing]
            rw [if_neg (by simp), if_neg hd]
          rw [hkg]
          constructor
          · intro h
            exact absurd h (by decide)
          · rintro (⟨msg, hcon⟩ | ⟨st2, det2, hcon, hne2⟩ | ⟨st2, d2, hcon, hd2, hlt2⟩)
            · exact SearchPageOutcome.noConfusion hcon
            · injection hcon with h1 _
              exact absurd h1.symm hne2
            · injection hcon with h1 h2
              injection h2 with h3
              subst h3
              exact absurd ⟨hd2, hlt2⟩ hd
    · simp [pageKeepGoing, hst]

/-- Shape of one term's page loop: the executed pages are `p, p+1, ...` of
some positive length bounded by the fuel, and an early stop is caused by
`keepGoing` turning false at the last executed page. -/
theorem runTermGo_spec (oracle : Nat → SearchPageOutcome) :
    ∀ fuel p : Nat, 0 < fuel →
      ∃ k, 0 < k ∧ k ≤ fuel ∧ runTermGo oracle fuel p = List.range' p k ∧
        (k < fuel → pageKeepGoing (oracle (p + k - 1)) (p + k - 1) = false) := by
  intro fuel
  induction fuel with
  | zero =>
    intro p h
    omega
  | succ n ih =>
    intro p _
    by_cases hk : pageKeepGoing (oracle p) p = true
    · cases n with
      | zero =>
        refine ⟨1, Nat.one_pos, Nat.le_refl 1, ?_, ?_⟩
        · simp [runTermGo, hk, List.range'_one]
        · intro h
          omega
      | succ m =>
        obtain ⟨k, hk0, hkle, heq, hterm⟩ := ih (p + 1) (Nat.succ_pos m)
        refine ⟨k + 1, Nat.succ_pos k, by omega, ?_, ?_⟩
        · show (if pageKeepGoing (oracle p) p = true
              then p :: runTermGo oracle (m + 1) (p + 1) else [p])
            = List.range' p (k + 1)
          rw [if_pos hk, heq, List.range'_succ]
        · intro hlt
          have := hterm (by omega)
          have harith : p + 1 + k - 1 = p + (k + 1) - 1 := by omega
          rw [harith] at this
          exact this
    · have hkf : pageKeepGoing (oracle p) p = false := by
        cases hpk : pageKeepGoing (oracle p) p
        · rfl
        · exact absurd hpk hk
      refine ⟨1, Nat.one_pos, by omega, ?_, ?_⟩
      · simp [runTermGo, hkf, List.range'_one]
      · intro _
        have harith : p + 1 - 1 = p := by omega
        rw [harith]
        exact hkf

/-- C6: an `EXECUTE_SEARCH_TASK` command with a non-empty effective
`searchTerms` list iterates each term over pages starting at 1 and
incrementing by 1 up to `MAX_PAGES_PER_TERM` (5), recording one internal
`OPEN_URL` page event per page; a term stops early only through the
early-termination rules (execution error, non-completed sub-command, or
truthy detected active page strictly below the requested page); the export
operation is triggered exactly once, after all terms' page events. -/
theorem searchTask_c6 (oracle : String → Nat → SearchPageOutcome) (cmd : Command)
    (hterms : filterSearchTerms cmd.payload.searchTerms ≠ []) :
    (runSearchTask oracle cmd).1 = ⟨"completed", none⟩ ∧
    (runSearchTask oracle cmd).2
        = ((filterSearchTerms cmd.payload.searchTerms).map
            (fun t => (runTermPages (oracle t)).map (mkSearchPageEvent cmd t))).flatten
          ++ [SearchEvent.exportData] ∧
    (runSearchTask oracle cmd).2.countP (fun e => decide (e = SearchEvent.exportData)) = 1 ∧
    (∀ t ∈ filterSearchTerms cmd.payload.searchTerms,
      ∃ k, 0 < k ∧ k ≤ MAX_PAGES_PER_TERM ∧
        runTermPages (oracle t) = List.range' 1 k ∧
        (k < MAX_PAGES_PER_TERM →
          (∃ msg, oracle t k = SearchPageOutcome.threw msg) ∨
          (∃ st det, oracle t k = SearchPageOutcome.ran st det ∧ st ≠ "completed") ∨
          (∃ st d, oracle t k = SearchPageOutcome.ran st (some d) ∧ d ≠ 0 ∧
            d < (k : Int)))) := by
  have hlen : (filterSearchTerms cmd.payload.searchTerms).length ≠ 0 := by
    intro h
    exact hterms (List.length_eq_zero.mp h)
  have e : runSearchTask oracle cmd
      = (⟨"completed", none⟩,
         ((filterSearchTerms cmd.payload.searchTerms).map
            (fun t => (runTermPages (oracle t)).map (mkSearchPageEvent cmd t))).flatten
           ++ [SearchEvent.exportData]) := by
    unfold runSearchTask
    simp [hlen]
  refine ⟨by rw [e], by rw [e], ?_, ?_⟩
  · rw [e]
    dsimp only
    rw [List.countP_append]
    have hpages : (((filterSearchTerms cmd.payload.searchTerms).map
        (fun t => (runTermPages (oracle t)).map (mkSearchPageEvent cmd t))).flatten).countP
          (fun e => decide (e = SearchEvent.exportData)) = 0 := by
      rw [List.countP_eq_zero]
      intro a ha
      obtain ⟨l, hl, hal⟩ := List.mem_flatten.mp ha
      obtain ⟨t, _, rfl⟩ := List.mem_map.mp hl
      obtain ⟨p, _, rfl⟩ := List.mem_map.mp hal
      simp [mkSearchPageEvent]
    rw [hpages]
    rfl
  · intro t _
    obtain ⟨k, hk0, hkle, heq, hterm⟩ :=
      runTermGo_spec (oracle t) MAX_PAGES_PER_TERM 1 (by decide)
    refine ⟨k, hk0, hkle, heq, ?_⟩
    intro hlt
    have hfalse := hterm hlt
    have harith : 1 + k - 1 = k := by omega
    rw [harith] at hfalse
    exact (pageKeepGoing_false_iff (oracle t k) k).mp hfalse

/-- C6 (witness): the search-task theorem applied to a one-term command
against an always-completing oracle. -/
theorem searchTask_c6_witness :
    filterSearchTerms c6Command.payload.searchTerms ≠ [] ∧
    (runSearchTask c6Oracle c6Command).1 = ⟨"completed", none⟩ :=
  ⟨by decide, (searchTask_c6 c6Oracle c6Command (by decide)).1⟩

/-- C10 (implicit): `enforceRateLimit` runs before the domain gate, so a
command that passes the id/type and agent-enabled checks records its
admission instant into the rate window even when it is then rejected with
`DOMAIN_NOT_ALLOWED` and never enqueued. -/
theorem rateBeforeGate_c10 (cmd : Command) (settings : Settings) (now : Int)
    (st : SWState) (hid : cmd.id ≠ "") (htype : cmd.type ≠ "")
    (hen : settings.agentControlEnabled = true)
    (hrate : (pruneWindow now st.recentCommandTimestamps).length
        < settings.maxCommandsPerMinute)
    (hgate : isCommandDomainAllowed cmd settings = false) :
    (handleIncomingCommand cmd settings now st).1
        = Except.ok { status := "rejected", error := some "DOMAIN_NOT_ALLOWED" } ∧
    (handleIncomingCommand cmd settings now st).2.recentCommandTimestamps
        = pruneWindow now st.recentCommandTimestamps ++ [now] ∧
    now ∈ (handleIncomingCommand cmd settings now st).2.recentCommandTimestamps ∧
    (handleIncomingCommand cmd settings now st).2.queue = st.queue := by
  rw [handleIncoming_rejected cmd settings now st hid htype hen hrate hgate]
  refine ⟨rfl, rfl, ?_, rfl⟩
  simp [appendLog]

/-- The sub-action loop executes every action, in list order, with
consecutive indices, and concatenates the records of each execution. -/
theorem runSubActions_spec (exec : Command → SubResult ρ) (parentId : String)
    (tabId : Nat) :
    ∀ (idx : Nat) (acts : List ActionSpec),
      (runSubActions exec parentId tabId idx acts).1
          = (List.enumFrom idx acts).map
              (fun p => mkActionCommand parentId tabId p.1 p.2) ∧
      (runSubActions exec parentId tabId idx acts).2
          = ((List.enumFrom idx acts).map (fun p =>
                match (exec (mkActionCommand parentId tabId p.1 p.2)).records with
                | some l => l
                | none => [])).flatten := by
  intro idx acts
  induction acts generalizing idx with
  | nil => simp [runSubActions, List.enumFrom]
  | cons a rest ih =>
    simp only [runSubActions, List.enumFrom, List.map_cons, List.flatten_cons]
    exact ⟨by rw [(ih (idx + 1)).1], by rw [(ih (idx + 1)).2]⟩

/-- C5 (counterexample): the claim asserts that when no sub-action succeeds
the parent result reflects the failure. Running an `OPEN_URL` command with
two sub-actions against an executor on which every sub-action fails (and
returns no records) still yields a parent status of `"completed"`: the
source returns `completed` unconditionally after the loop. -/
theorem openUrlSubActions_c5_counterexample :
    (handleOpenUrlSubActions c5FailExec c5Command 7).2.length = 2 ∧
    (∀ c ∈ (handleOpenUrlSubActions c5FailExec c5Command 7).2,
        (c5FailExec c).status ≠ "completed") ∧
    (handleOpenUrlSubActions c5FailExec c5Command 7).1.status = "completed" := by
  exact ⟨by decide, by decide, by decide⟩

/-- C5 (amended): the sub-actions of an `OPEN_URL` command execute strictly
in order (every action executes even after a failure), all `records`
arrays they return are concatenated in order into the parent's result, and
the parent's status is `"completed"` regardless of sub-action failures —
sub-action outcomes never change the parent status once navigation and
attach have succeeded. -/
theorem openUrlSubActions_c5 (exec : Command → SubResult ρ) (cmd : Command)
    (tabId : Nat) :
    (handleOpenUrlSubActions exec cmd tabId).2
        = (List.enumFrom 0 (effectiveActions cmd)).map
            (fun p => mkActionCommand cmd.id tabId p.1 p.2) ∧
    (handleOpenUrlSubActions exec cmd tabId).1.status = "completed" ∧
    (handleOpenUrlSubActions exec cmd tabId).1.tabId = some tabId ∧
    ((handleOpenUrlSubActions exec cmd tabId).1.records.getD []
        = ((List.enumFrom 0 (effectiveActions cmd)).map (fun p =>
            match (exec (mkActionCommand cmd.id tabId p.1 p.2)).records with
            | some l => l
            | none => [])).flatten) := by
  obtain ⟨h1, h2⟩ := runSubActions_spec exec cmd.id tabId 0 (effectiveActions cmd)
  by_cases hlen :
      0 < (runSubActions exec cmd.id tabId 0 (effectiveActions cmd)).2.length
  · have e : handleOpenUrlSubActions exec cmd tabId
        = (⟨"completed", some tabId,
            some (runSubActions exec cmd.id tabId 0 (effectiveActions cmd)).2⟩,
           (runSubActions exec cmd.id tabId 0 (effectiveActions cmd)).1) := by
      unfold handleOpenUrlSubActions
      simp [hlen]
    rw [e]
    exact ⟨h1, rfl, rfl, h2⟩
  · have e : handleOpenUrlSubActions exec cmd tabId
        = (⟨"completed", some tabId, none⟩,
           (runSubActions exec cmd.id tabId 0 (effectiveActions cmd)).1) := by
      unfold handleOpenUrlSubActions
      simp [hlen]
    have hnil : (runSubActions exec cmd.id tabId 0 (effectiveActions cmd)).2 = [] :=
      List.length_eq_zero.mp (by omega)
    rw [e]
    exact ⟨h1, rfl, rfl, (h2.symm.trans hnil).symm⟩

/-- `Map.delete` leaves no binding for the deleted key. -/
theorem lookup_filter_ne (t : Nat) :
    ∀ l : List (Nat × TabSession),
      List.lookup t (l.filter (fun p => decide (p.1 ≠ t))) = none := by
  intro l
  induction l with
  | nil => rfl
  | cons a l ih =>
    obtain ⟨k, v⟩ := a
    rw [List.filter_cons]
    by_cases hk : k = t
    · have hdec : decide ((k, v).1 ≠ t) = false := by simp [hk]
      rw [hdec, if_neg (by simp)]
      exact ih
    · have hdec : decide ((k, v).1 ≠ t) = true := by simp [hk]
      rw [hdec, if_pos rfl]
      have hbeq : (t == k) = false := beq_eq_false_iff_ne.mpr (Ne.symm hk)
      have hstep : List.lookup t ((k, v) :: List.filter (fun p => decide (p.1 ≠ t)) l)
          = List.lookup t (List.filter (fun p => decide (p.1 ≠ t)) l) := by
        simp [List.lookup, hbeq]
      rw [hstep]
      exact ih

/-- The capture type stored on records is never the empty string. -/
theorem effectiveCaptureType_ne_empty (cmd : Command) (session : TabSession) :
    effectiveCaptureType cmd session ≠ "" := by
  unfold effectiveCaptureType jsOrElse
  cases cmd.payload.captureType with
  | none =>
    cases session.captureMode with
    | none => decide
    | some s => by_cases hs : s = "" <;> simp [hs]
  | some s =>
    by_cases hs : s = ""
    · simp only [hs]
      cases session.captureMode with
      | none => decide
      | some s2 => by_cases hs2 : s2 = "" <;> simp [hs2]
    · simp [hs]

/-- C7: a `CAPTURE_JSON_FROM_DEVTOOLS` command on a tab with an active
session does not wipe the previously buffered bodies: every buffered body
whose raw size does not exceed `maxResponseBodyBytes` and that parses as
JSON yields exactly one record `{source: "raw", url, captureType, json}`
(in buffer order); over-size bodies are skipped and parse failures are
dropped without failing the handler, which reports `completed`; the
session is removed from the session map. -/
theorem captureJson_c7 (parse : String → Option κ) (cmd : Command)
    (settings : Settings) (sessions : List (Nat × TabSession)) (tabId : Nat)
    (session : TabSession) (htab : cmd.payload.tabId = some tabId)
    (hne : tabId ≠ 0) (hsess : List.lookup tabId sessions = some session) :
    (handleCaptureJson parse cmd settings sessions).1.status = "completed" ∧
    (handleCaptureJson parse cmd settings sessions).1.errorCode = none ∧
    (handleCaptureJson parse cmd settings sessions).1.records
        = some (session.capturedBodies.filterMap (fun b =>
            if b.raw.data.length ≤ settings.maxResponseBodyBytes then
              (parse b.raw).map (fun j =>
                { source := "raw", url := b.url,
                  captureType := effectiveCaptureType cmd session, json := j })
            else none)) ∧
    (handleCaptureJson parse cmd settings sessions).2
        = sessions.filter (fun p => decide (p.1 ≠ tabId)) ∧
    List.lookup tabId (handleCaptureJson parse cmd settings sessions).2 = none := by
  have hct : jsOrElse (some (effectiveCaptureType cmd session)) "listings"
      = effectiveCaptureType cmd session := by
    unfold jsOrElse
    simp [effectiveCaptureType_ne_empty cmd session]
  have e : handleCaptureJson parse cmd settings sessions
      = (⟨"completed", none,
          some (session.capturedBodies.filterMap (fun b =>
            if settings.maxResponseBodyBytes < b.raw.data.length then none
            else
              match parse b.raw with
              | some j =>
                some ⟨"raw", b.url,
                  jsOrElse (some (effectiveCaptureType cmd session)) "listings", j⟩
              | none => none))⟩,
         sessions.filter (fun p => decide (p.1 ≠ tabId))) := by
    unfold handleCaptureJson
    rw [htab]
    simp [hne, hsess]
  rw [e]
  refine ⟨rfl, rfl, ?_, rfl, lookup_filter_ne tabId sessions⟩
  dsimp only
  apply congrArg
  apply List.filterMap_congr
  intro b _
  by_cases hb : settings.maxResponseBodyBytes < b.raw.data.length
  · rw [if_pos hb, if_neg (by omega)]
  · rw [if_neg hb, if_pos (by omega), hct]
    cases parse b.raw <;> rfl

/-- C7 (witness): the capture theorem applied to the concrete two-body
session on tab 5. -/
theorem captureJson_c7_witness :
    c7Command.payload.tabId = some 5 ∧ (5 : Nat) ≠ 0 ∧
    List.lookup 5 [(5, c7Session)] = some c7Session ∧
    (handleCaptureJson c7Parse c7Command DEFAULT_SETTINGS [(5, c7Session)]).1.status
      = "completed" :=
  ⟨rfl, by decide, by decide,
   (captureJson_c7 c7Parse c7Command DEFAULT_SETTINGS [(5, c7Session)] 5 c7Session
      rfl (by decide) (by decide)).1⟩

/-- C10 (witness): the instant 0 is recorded although the command is
domain-rejected. -/
theorem rateBeforeGate_c10_witness :
    c2Command.id ≠ "" ∧ c2Command.type ≠ "" ∧
    enabledSettings.agentControlEnabled = true ∧
    (pruneWindow 0 (({} : SWState)).recentCommandTimestamps).length
        < enabledSettings.maxCommandsPerMinute ∧
    isCommandDomainAllowed c2Command enabledSettings = false ∧
    (0 : Int) ∈ (handleIncomingCommand c2Command enabledSettings 0 {}).2.recentCommandTimestamps :=
  ⟨by decide, by decide, by decide, by decide, by decide,
   (rateBeforeGate_c10 c2Command enabledSettings 0 {} (by decide) (by decide)
      (by decide) (by decide) (by decide)).2.2.1⟩

end BrowserGod
